import Mathlib

/-!
Shallow embedding of `src/science_jeopardy.py`, a Streamlit quiz app:
loading a question bank from a JSON file, sampling a fixed-size test,
session state, and grading a submission.

Modelling conventions:
* `time.time()` values and elapsed durations are rationals (`ℚ`).
* `random.sample(bank, count)` is modelled by `sample`, parameterised by a
  stream `rand : Nat → Nat` of random draws; at each step the draw is taken
  modulo the number of remaining elements and the chosen element is removed
  (sampling without replacement by position).
* Streamlit `st.session_state` keys may be absent, so the three session
  fields are `Option`-wrapped; `initialize_session` fills in defaults
  exactly as the `if 'key' not in st.session_state` guards do.
* `st.error` calls in the loader are modelled as an error channel paired
  with the function's return value.
* Python floats are modelled as exact rationals.
-/

namespace ScienceJeopardy

/-- Constant `TEST_DURATION_MINUTES = 30` (line 8 of the source). -/
def TEST_DURATION_MINUTES : Nat := 30

/-- Constant `QUESTIONS_PER_TEST = 30` (line 9 of the source). -/
def QUESTIONS_PER_TEST : Nat := 30

/-- A question record of the bank: the JSON objects in `questions.json`,
with required keys `question`, `options`, `answer` and optional `topic`. -/
structure Question where
  question : String
  options : List String
  answer : String
  topic : Option String
deriving DecidableEq, Repr, Inhabited

/-- The possible shapes of the top-level JSON value of the question file;
the code only inspects `isinstance(data, list)`. -/
inductive JsonValue where
  | list (elems : List Question)
  | dict
  | str (s : String)
  | num (n : Int)
  | bool (b : Bool)
  | null
deriving DecidableEq, Repr

/-- State of the question file as `load_questions_from_file` can observe it:
absent (`FileNotFoundError`), present but not JSON (`json.JSONDecodeError`),
or decoded to a top-level JSON value. -/
inductive FileState where
  | missing
  | undecodable
  | decoded (v : JsonValue)
deriving DecidableEq, Repr

/-- The loader's error taxonomy from the spec: `NotFound` for a missing
source, `MalformedData` for an unparseable source or a non-list top level. -/
inductive LoadError where
  | notFound
  | malformedData
deriving DecidableEq, Repr

/-- Loader `load_questions_from_file` (lines 14-29): returns the displayed error
(if any, via `st.error`) together with the returned list. -/
def load_questions_from_file (fs : FileState) : Option LoadError × List Question :=
  match fs with
  | .missing => (some .notFound, [])
  | .undecodable => (some .malformedData, [])
  | .decoded v =>
    match v with
    | .list qs => (none, qs)
    | _ => (some .malformedData, [])

/-- Model of `random.sample(l, n)`: draw `n` elements without replacement, the
`k`-th draw taken from the remaining elements at the index `rand k`
modulo their number. -/
def sample (rand : Nat → Nat) : Nat → Nat → List α → List α
  | 0, _, _ => []
  | _ + 1, _, [] => []
  | n + 1, step, q :: rest =>
    (q :: rest).get ⟨rand step % (q :: rest).length, Nat.mod_lt _ (Nat.succ_pos rest.length)⟩ ::
      sample rand n (step + 1) ((q :: rest).eraseIdx (rand step % (q :: rest).length))

/-- The three `st.session_state` keys the app uses; each is `none` when the
key is absent.  `start_time` holds `None` or a timestamp when present. -/
structure SessionState where
  exam_started : Option Bool
  selected_questions : Option (List Question)
  start_time : Option (Option ℚ)
deriving DecidableEq, Repr

/-- A fresh Streamlit session: no key present. -/
def freshSession : SessionState := ⟨none, none, none⟩

/-- Initialisation `initialize_session` (lines 82-89): set each key to its default only
when it is absent. -/
def initialize_session (s : SessionState) : SessionState where
  exam_started := some (s.exam_started.getD false)
  selected_questions := some (s.selected_questions.getD [])
  start_time := some (s.start_time.getD none)

/-- Action `start_test` (lines 91-100): load the bank, return unchanged on an
empty bank, otherwise sample `min(QUESTIONS_PER_TEST, len(bank))` questions
and stamp the start time. -/
def start_test (fs : FileState) (rand : Nat → Nat) (now : ℚ) (s : SessionState) :
    SessionState :=
  let bank := (load_questions_from_file fs).2
  if bank.isEmpty then s
  else
    { exam_started := some true
      selected_questions := some (sample rand (min QUESTIONS_PER_TEST bank.length) 0 bank)
      start_time := some (some now) }

/-- The three result tiers of the score display (lines 185-190). -/
inductive Tier where
  | excellent
  | needsReview
  | needsPractice
deriving DecidableEq, Repr

/-- The tier selection `if score >= 25 ... elif score >= 15 ... else`
(lines 185-190). -/
def tier_of (score : Nat) : Tier :=
  if score ≥ 25 then .excellent
  else if score ≥ 15 then .needsReview
  else .needsPractice

/-- Verdict `is_correct = (user_val == correct_val)` (line 156), where `user_val`
is the possibly-absent radio selection. -/
def is_correct (user_val : Option String) (correct_val : String) : Bool :=
  user_val == some correct_val

/-- Errors grading can end in.  `zeroDivision` models Python's
`ZeroDivisionError` at `score / len(...)` (line 177); `emptySession` is the
error name the spec asks for and the code never produces. -/
inductive GradeError where
  | zeroDivision
  | emptySession
deriving DecidableEq, Repr

/-- The rendered outcome of the submit branch: per-question verdicts, raw
score, percentage, lateness banner flag, and tier message. -/
structure GradeReport where
  verdicts : List Bool
  raw_score : Nat
  percentage : ℚ
  is_late : Bool
  tier : Tier
deriving DecidableEq, Repr

/-- The grading loop `for i, q in enumerate(...)` (lines 153-156): the
verdict of question `q` at display index `i` is
`is_correct (responses i) q.answer`. -/
def gradeVerdicts (responses : Nat → Option String) : Nat → List Question → List Bool
  | _, [] => []
  | i, q :: rest => is_correct (responses i) q.answer :: gradeVerdicts responses (i + 1) rest

/-- Elapsed time `elapsed = time.time() - st.session_state.start_time` (line 126). -/
def main_elapsed (now start_time : ℚ) : ℚ := now - start_time

/-- Lateness flag `is_late = elapsed > TEST_DURATION_MINUTES * 60` (line 127). -/
def main_is_late (now start_time : ℚ) : Bool :=
  decide (main_elapsed now start_time > (TEST_DURATION_MINUTES : ℚ) * 60)

/-- The submit branch (lines 144-190): verdicts and score from the grading
loop, then `final_score_pct = (score / len(selected)) * 100` — a
`ZeroDivisionError` when no question was selected — percentage, lateness
flag and tier. -/
def grade (qs : List Question) (responses : Nat → Option String) (elapsed : ℚ) :
    Except GradeError GradeReport :=
  let verdicts := gradeVerdicts responses 0 qs
  let score := verdicts.count true
  if qs.length = 0 then .error .zeroDivision
  else .ok
    { verdicts := verdicts
      raw_score := score
      percentage := ((score : ℚ) / (qs.length : ℚ)) * 100
      is_late := decide (elapsed > (TEST_DURATION_MINUTES : ℚ) * 60)
      tier := tier_of score }

/-- Session states reachable in the app: a fresh session, then any
interleaving of `initialize_session` (every rerun of `main`) and
`start_test` (the sidebar button). -/
inductive Reachable : SessionState → Prop where
  | fresh : Reachable freshSession
  | init {s : SessionState} : Reachable s → Reachable (initialize_session s)
  | start {s : SessionState} (fs : FileState) (rand : Nat → Nat) (now : ℚ) :
      Reachable s → Reachable (start_test fs rand now s)

/-- Concrete questions for witnesses. -/
def qA : Question := ⟨"What is H2O?", ["water", "salt"], "water", none⟩

def qDemoA : Question := ⟨"first", ["A", "X"], "A", none⟩

def qDemoB : Question := ⟨"second", ["B", "X"], "B", some "Biology"⟩

def qDemoC : Question := ⟨"third", ["C", "X"], "C", none⟩

/-- The 3-question session of the spec's scoring example. -/
def demoQs : List Question := [qDemoA, qDemoB, qDemoC]

/-- The responses `["A","X","C"]` of the spec's scoring example. -/
def demoResponses : Nat → Option String :=
  fun i => [some "A", some "X", some "C"].getD i none

/-! ### Helper lemmas -/

theorem get_cons_eraseIdx_perm {α : Type _} :
    ∀ (l : List α) (i : Nat) (h : i < l.length),
      List.Perm (l.get ⟨i, h⟩ :: l.eraseIdx i) l := by
  intro l
  induction l with
  | nil => intro i h; exact absurd h (by simp)
  | cons a t ih =>
    intro i h
    cases i with
    | zero => simp
    | succ j =>
      have hj : j < t.length := by simpa using h
      exact (List.Perm.swap a (t.get ⟨j, hj⟩) (t.eraseIdx j)).trans ((ih j hj).cons a)

theorem length_eraseIdx_of_lt {α : Type _} (l : List α) (i : Nat) (h : i < l.length) :
    (l.eraseIdx i).length = l.length - 1 := by
  have hp := (get_cons_eraseIdx_perm l i h).length_eq
  simp only [List.length_cons] at hp
  omega

theorem sample_subperm {α : Type _} (rand : Nat → Nat) :
    ∀ (n step : Nat) (l : List α), List.Subperm (sample rand n step l) l := by
  intro n
  induction n with
  | zero => intro step l; simp only [sample]; exact List.nil_subperm
  | succ m ih =>
    intro step l
    cases l with
    | nil => simp only [sample]; exact List.nil_subperm
    | cons q rest =>
      rw [sample]
      have hlt : rand step % (q :: rest).length < (q :: rest).length :=
        Nat.mod_lt _ (Nat.succ_pos rest.length)
      obtain ⟨u, pu, su⟩ := ih (step + 1) ((q :: rest).eraseIdx (rand step % (q :: rest).length))
      exact List.Subperm.trans ⟨_ :: u, pu.cons _, su.cons₂ _⟩
        (get_cons_eraseIdx_perm (q :: rest) _ hlt).subperm

theorem sample_length {α : Type _} (rand : Nat → Nat) :
    ∀ (n step : Nat) (l : List α), n ≤ l.length → (sample rand n step l).length = n := by
  intro n
  induction n with
  | zero => intro step l _; simp [sample]
  | succ m ih =>
    intro step l hn
    cases l with
    | nil => exact absurd hn (by simp)
    | cons q rest =>
      have hlt : rand step % (q :: rest).length < (q :: rest).length :=
        Nat.mod_lt _ (Nat.succ_pos rest.length)
      have hle : m ≤ ((q :: rest).eraseIdx (rand step % (q :: rest).length)).length := by
        rw [length_eraseIdx_of_lt _ _ hlt]
        simp only [List.length_cons] at hn ⊢
        omega
      rw [sample, List.length_cons, ih (step + 1) _ hle]

theorem gradeVerdicts_length (responses : Nat → Option String) :
    ∀ (i : Nat) (qs : List Question),
      (gradeVerdicts responses i qs).length = qs.length := by
  intro i qs
  induction qs generalizing i with
  | nil => simp [gradeVerdicts]
  | cons q rest ih => simp [gradeVerdicts, ih]

theorem gradeVerdicts_getElem? (responses : Nat → Option String) :
    ∀ (qs : List Question) (i j : Nat),
      (gradeVerdicts responses i qs)[j]? =
        qs[j]?.map fun q => is_correct (responses (i + j)) q.answer := by
  intro qs
  induction qs with
  | nil => intro i j; simp [gradeVerdicts]
  | cons q rest ih =>
    intro i j
    cases j with
    | zero => simp [gradeVerdicts]
    | succ k =>
      have := ih (i + 1) k
      simp only [gradeVerdicts, List.getElem?_cons_succ, this]
      have harith : i + 1 + k = i + (k + 1) := by omega
      rw [harith]

theorem grade_ok_of_ne_nil (qs : List Question) (responses : Nat → Option String)
    (elapsed : ℚ) (h : qs ≠ []) :
    grade qs responses elapsed =
      Except.ok
        { verdicts := gradeVerdicts responses 0 qs
          raw_score := (gradeVerdicts responses 0 qs).count true
          percentage := (((gradeVerdicts responses 0 qs).count true : ℚ) / (qs.length : ℚ)) * 100
          is_late := decide (elapsed > (TEST_DURATION_MINUTES : ℚ) * 60)
          tier := tier_of ((gradeVerdicts responses 0 qs).count true) } := by
  have hlen : qs.length ≠ 0 := fun hc => h (List.length_eq_zero.mp hc)
  simp [grade, hlen]

theorem grade_ok_elim {qs : List Question} {responses : Nat → Option String}
    {elapsed : ℚ} {rep : GradeReport}
    (h : grade qs responses elapsed = Except.ok rep) :
    rep.verdicts = gradeVerdicts responses 0 qs ∧
      rep.raw_score = (gradeVerdicts responses 0 qs).count true ∧
      rep.percentage = (((gradeVerdicts responses 0 qs).count true : ℚ) / (qs.length : ℚ)) * 100 ∧
      rep.is_late = decide (elapsed > (TEST_DURATION_MINUTES : ℚ) * 60) ∧
      rep.tier = tier_of ((gradeVerdicts responses 0 qs).count true) := by
  by_cases hlen : qs.length = 0
  · simp [grade, hlen] at h
  · simp only [grade, hlen, if_false, Except.ok.injEq] at h
    subst h
    exact ⟨rfl, rfl, rfl, rfl, rfl⟩

theorem subperm_nodup {α : Type _} {l₁ l₂ : List α} (h : List.Subperm l₁ l₂)
    (hd : l₂.Nodup) : l₁.Nodup := by
  obtain ⟨u, pu, su⟩ := h
  exact pu.nodup (List.Nodup.sublist su hd)

/-! ### Claim theorems -/

/-- C1: for every question bank and the configured count, if the loaded bank
is non-empty then `start_test` stores a `selected_questions` sequence of
exactly `min(QUESTIONS_PER_TEST, N)` records sampled without replacement
(a sub-permutation of the bank, so no index is used twice), each of which
is a member of the original bank; the sample is duplicate-free whenever
the bank is. -/
theorem start_test_sampling_correct (fs : FileState) (rand : Nat → Nat) (now : ℚ)
    (s : SessionState) (hbank : (load_questions_from_file fs).2 ≠ []) :
    ∃ sel, (start_test fs rand now s).selected_questions = some sel ∧
      sel.length = min QUESTIONS_PER_TEST (load_questions_from_file fs).2.length ∧
      List.Subperm sel (load_questions_from_file fs).2 ∧
      (∀ q ∈ sel, q ∈ (load_questions_from_file fs).2) ∧
      ((load_questions_from_file fs).2.Nodup → sel.Nodup) := by
  have hempty : (load_questions_from_file fs).2.isEmpty = false := by
    cases hq : (load_questions_from_file fs).2 with
    | nil => exact absurd hq hbank
    | cons a t => simp
  have hsub := sample_subperm rand (min QUESTIONS_PER_TEST (load_questions_from_file fs).2.length)
    0 (load_questions_from_file fs).2
  refine ⟨_, ?_, ?_, hsub, fun q hq => hsub.subset hq, fun hd => subperm_nodup hsub hd⟩
  · simp [start_test, hempty]
  · exact sample_length rand _ 0 _ (Nat.min_le_right _ _)

/-- C1 witness: a one-question bank instantiates the sampling theorem. -/
theorem start_test_sampling_correct_witness :
    ∃ sel, (start_test (FileState.decoded (JsonValue.list [qA])) (fun _ => 0) 0
        freshSession).selected_questions = some sel ∧
      sel.length = min QUESTIONS_PER_TEST
        (load_questions_from_file (FileState.decoded (JsonValue.list [qA]))).2.length ∧
      List.Subperm sel (load_questions_from_file (FileState.decoded (JsonValue.list [qA]))).2 ∧
      (∀ q ∈ sel, q ∈ (load_questions_from_file (FileState.decoded (JsonValue.list [qA]))).2) ∧
      ((load_questions_from_file (FileState.decoded (JsonValue.list [qA]))).2.Nodup →
        sel.Nodup) :=
  start_test_sampling_correct (FileState.decoded (JsonValue.list [qA])) (fun _ => 0) 0
    freshSession (by decide)

/-- C6: the loader reports `NotFound` exactly when the file is absent,
`MalformedData` exactly when the file cannot be decoded or its top-level
value is not a list, and otherwise returns the parsed list unchanged with
no error. -/
theorem load_error_classification (fs : FileState) :
    ((load_questions_from_file fs).1 = some LoadError.notFound ↔ fs = FileState.missing) ∧
    ((load_questions_from_file fs).1 = some LoadError.malformedData ↔
      (fs = FileState.undecodable ∨
        ∃ v, fs = FileState.decoded v ∧ ∀ qs, v ≠ JsonValue.list qs)) ∧
    (∀ qs, fs = FileState.decoded (JsonValue.list qs) →
      load_questions_from_file fs = (none, qs)) := by
  rcases fs with _ | _ | v
  · refine ⟨by simp [load_questions_from_file], by simp [load_questions_from_file], ?_⟩
    intro qs h
    exact absurd h (by simp)
  · refine ⟨by simp [load_questions_from_file], by simp [load_questions_from_file], ?_⟩
    intro qs h
    exact absurd h (by simp)
  · cases v <;>
      refine ⟨by simp [load_questions_from_file], by simp [load_questions_from_file], ?_⟩ <;>
      intro qs h <;> simp_all [load_questions_from_file]

/-- C6 witness: the classification instantiated at a missing file. -/
theorem load_error_classification_witness :
    (load_questions_from_file FileState.missing).1 = some LoadError.notFound :=
  (load_error_classification FileState.missing).1.mpr rfl

/-- C7: when loading fails (missing or undecodable source, or a non-list
top level) or the loaded bank is empty, `start_test` leaves the session
state — `selected_questions`, `start_time`, and the `exam_started` flag —
entirely unmodified. -/
theorem start_test_load_error_isolation (rand : Nat → Nat) (now : ℚ) (s : SessionState) :
    start_test FileState.missing rand now s = s ∧
    start_test FileState.undecodable rand now s = s ∧
    (∀ v, (∀ qs, v ≠ JsonValue.list qs) →
      start_test (FileState.decoded v) rand now s = s) ∧
    (∀ fs, (load_questions_from_file fs).2 = [] → start_test fs rand now s = s) := by
  have hnil : ∀ fs, (load_questions_from_file fs).2 = [] → start_test fs rand now s = s := by
    intro fs h
    simp [start_test, h]
  refine ⟨hnil _ rfl, hnil _ rfl, ?_, hnil⟩
  intro v hv
  cases v with
  | list qs => exact absurd rfl (hv qs)
  | _ => exact hnil _ rfl

/-- C7 witness: a session with an active test is untouched by a failing
`start_test` on a missing file and on an empty bank. -/
theorem start_test_load_error_isolation_witness :
    start_test FileState.missing (fun _ => 0) 3
        ⟨some true, some [qA], some (some 7)⟩ =
      ⟨some true, some [qA], some (some 7)⟩ ∧
    start_test (FileState.decoded (JsonValue.list [])) (fun _ => 0) 3
        ⟨some true, some [qA], some (some 7)⟩ =
      ⟨some true, some [qA], some (some 7)⟩ :=
  ⟨(start_test_load_error_isolation (fun _ => 0) 3 _).1,
    (start_test_load_error_isolation (fun _ => 0) 3 _).2.2.2
      (FileState.decoded (JsonValue.list [])) rfl⟩

theorem gradeVerdicts_none_false :
    ∀ (qs : List Question) (i : Nat) (b : Bool),
      b ∈ gradeVerdicts (fun _ => none) i qs → b = false := by
  intro qs
  induction qs with
  | nil => intro i b hb; simp [gradeVerdicts] at hb
  | cons q rest ih =>
    intro i b hb
    simp only [gradeVerdicts, List.mem_cons] at hb
    rcases hb with hb | hb
    · simpa [is_correct] using hb
    · exact ih (i + 1) b hb

/-- C2: grading sets per-question correctness to
`responses[i] == question.answer`, the raw score is the number of correct
answers, and the percentage is `100 * raw_score / total`; on the
three-question example with answers A, B, C and responses A, X, C the raw
score is 2 and the percentage is 200/3 ≈ 66.7. -/
theorem grade_scoring_correct :
    (∀ (qs : List Question) (responses : Nat → Option String) (elapsed : ℚ),
      qs ≠ [] →
      ∃ rep, grade qs responses elapsed = Except.ok rep ∧
        rep.verdicts.length = qs.length ∧
        (∀ i q, qs[i]? = some q →
          rep.verdicts[i]? = some (is_correct (responses i) q.answer)) ∧
        rep.raw_score = rep.verdicts.count true ∧
        rep.percentage = 100 * (rep.raw_score : ℚ) / (qs.length : ℚ)) ∧
    (∃ rep, grade demoQs demoResponses 0 = Except.ok rep ∧
      rep.raw_score = 2 ∧ rep.percentage = 200 / 3 ∧
      |rep.percentage - 667 / 10| < 1 / 10) := by
  constructor
  · intro qs responses elapsed h
    refine ⟨_, grade_ok_of_ne_nil qs responses elapsed h,
      gradeVerdicts_length responses 0 qs, ?_, rfl, by ring⟩
    intro i q hq
    have hg := gradeVerdicts_getElem? responses qs 0 i
    simp only [Nat.zero_add, hq, Option.map_some'] at hg
    exact hg
  · have hcount : (gradeVerdicts demoResponses 0 demoQs).count true = 2 := by decide
    refine ⟨_, grade_ok_of_ne_nil demoQs demoResponses 0 (by decide), ?_, ?_, ?_⟩
    · exact hcount
    · show (((gradeVerdicts demoResponses 0 demoQs).count true : ℚ) /
          ((demoQs.length : ℕ) : ℚ)) * 100 = 200 / 3
      rw [hcount]
      norm_num [demoQs]
    · show |(((gradeVerdicts demoResponses 0 demoQs).count true : ℚ) /
          ((demoQs.length : ℕ) : ℚ)) * 100 - 667 / 10| < 1 / 10
      rw [hcount]
      rw [abs_sub_lt_iff]
      norm_num [demoQs]

/-- C2 witness: the general scoring theorem instantiated at a concrete
one-question session. -/
theorem grade_scoring_correct_witness :
    ∃ rep, grade [qA] (fun _ => some "water") 0 = Except.ok rep ∧
      rep.raw_score = rep.verdicts.count true := by
  obtain ⟨rep, h1, _, _, h4, _⟩ :=
    grade_scoring_correct.1 [qA] (fun _ => some "water") 0 (by decide)
  exact ⟨rep, h1, h4⟩

/-- C3: the tier is a function of the raw score with boundaries 25 and 15:
`tier_of 25 = excellent`, `tier_of 24 = tier_of 15 = needsReview`,
`tier_of 14 = needsPractice`, and every grade report carries
`tier_of raw_score`. -/
theorem tier_boundaries :
    (∀ score : Nat,
      (25 ≤ score → tier_of score = Tier.excellent) ∧
      (15 ≤ score → score < 25 → tier_of score = Tier.needsReview) ∧
      (score < 15 → tier_of score = Tier.needsPractice)) ∧
    tier_of 25 = Tier.excellent ∧ tier_of 24 = Tier.needsReview ∧
    tier_of 15 = Tier.needsReview ∧ tier_of 14 = Tier.needsPractice ∧
    (∀ (qs : List Question) (responses : Nat → Option String) (elapsed : ℚ)
        (rep : GradeReport), grade qs responses elapsed = Except.ok rep →
      rep.tier = tier_of rep.raw_score) := by
  refine ⟨?_, by decide, by decide, by decide, by decide, ?_⟩
  · intro score
    refine ⟨fun h => by simp [tier_of, h], fun h1 h2 => ?_, fun h => ?_⟩
    · have hno : ¬ score ≥ 25 := by omega
      simp [tier_of, hno, h1]
    · have hno : ¬ score ≥ 25 := by omega
      have hno2 : ¬ score ≥ 15 := by omega
      simp [tier_of, hno, hno2]
  · intro qs responses elapsed rep h
    obtain ⟨_, hs, _, _, ht⟩ := grade_ok_elim h
    rw [ht, hs]

/-- C3 witness: the boundary instance `tier_of 25 = excellent` via the
theorem. -/
theorem tier_boundaries_witness : tier_of 25 = Tier.excellent :=
  (tier_boundaries.1 25).1 (by decide)

/-- C4 counterexample: grading a session with zero selected questions runs
into the unguarded division `score / len(selected)` — a
`ZeroDivisionError` — and not the `EmptySession` failure the claim
demands. -/
theorem grade_empty_not_emptySession :
    grade [] (fun _ => none) 0 = Except.error GradeError.zeroDivision ∧
    grade [] (fun _ => none) 0 ≠ Except.error GradeError.emptySession := by
  refine ⟨rfl, ?_⟩
  intro h
  rw [show grade [] (fun _ => none) 0 = Except.error GradeError.zeroDivision from rfl] at h
  simp at h

/-- C4 (amended): grading on a non-empty selection raises no error; when
invoked with zero selected questions the code performs an unguarded
division by zero (`ZeroDivisionError`), and `zeroDivision` is the only
error grading can produce — there is no `EmptySession` guard. -/
theorem grade_error_guard (qs : List Question) (responses : Nat → Option String)
    (elapsed : ℚ) :
    (qs ≠ [] → ∃ rep, grade qs responses elapsed = Except.ok rep) ∧
    (qs = [] → grade qs responses elapsed = Except.error GradeError.zeroDivision) ∧
    (∀ e, grade qs responses elapsed = Except.error e → e = GradeError.zeroDivision) := by
  refine ⟨fun h => ⟨_, grade_ok_of_ne_nil qs responses elapsed h⟩, fun h => ?_, ?_⟩
  · subst h; rfl
  · intro e he
    by_cases hlen : qs.length = 0
    · simp only [grade, hlen, if_true, reduceIte, Except.error.injEq] at he
      exact he.symm
    · rw [grade_ok_of_ne_nil qs responses elapsed
        (fun hc => hlen (by simp [hc]))] at he
      simp at he

/-- C4 witness: the amended guarantee at a concrete one-question session. -/
theorem grade_error_guard_witness :
    ∃ rep, grade [qA] (fun _ => none) 0 = Except.ok rep := by
  obtain ⟨rep, h⟩ := (grade_error_guard [qA] (fun _ => none) 0).1 (by decide)
  exact ⟨rep, h⟩

/-- C5: a "no selection" (absent) response never equals any correct answer
and is always scored incorrect, and grading an entirely unanswered
non-empty session still succeeds: every verdict is false, the raw score is
0 and the percentage is 0. -/
theorem no_selection_always_incorrect :
    (∀ a : String, is_correct none a = false) ∧
    (∀ (qs : List Question) (elapsed : ℚ), qs ≠ [] →
      ∃ rep, grade qs (fun _ => none) elapsed = Except.ok rep ∧
        (∀ b ∈ rep.verdicts, b = false) ∧
        rep.raw_score = 0 ∧ rep.percentage = 0) := by
  refine ⟨fun a => rfl, ?_⟩
  intro qs elapsed h
  have hcount : (gradeVerdicts (fun _ => none) 0 qs).count true = 0 := by
    refine List.count_eq_zero.mpr ?_
    intro hmem
    exact absurd (gradeVerdicts_none_false qs 0 true hmem) (by simp)
  refine ⟨_, grade_ok_of_ne_nil qs (fun _ => none) elapsed h,
    fun b hb => gradeVerdicts_none_false qs 0 b hb, hcount, ?_⟩
  show (((gradeVerdicts (fun _ => none) 0 qs).count true : ℚ) / (qs.length : ℚ)) * 100 = 0
  rw [hcount]
  simp

/-- C5 witness: the no-selection guarantee at a concrete one-question
session. -/
theorem no_selection_always_incorrect_witness :
    ∃ rep, grade [qA] (fun _ => none) 0 = Except.ok rep ∧
      (∀ b ∈ rep.verdicts, b = false) ∧ rep.raw_score = 0 ∧ rep.percentage = 0 :=
  no_selection_always_incorrect.2 [qA] 0 (by decide)

/-- C8: lateness is advisory: `main_is_late` is exactly
`now - start_time > TEST_DURATION_MINUTES * 60`, and grading a late
session still yields a complete report with `is_late = true` whose
verdicts, raw score, percentage and tier agree with grading at any other
elapsed time — the submission is neither rejected nor zeroed. -/
theorem lateness_advisory (qs : List Question) (responses : Nat → Option String)
    (now t e2 : ℚ) (h : qs ≠ [])
    (hl : now - t > (TEST_DURATION_MINUTES : ℚ) * 60) :
    main_is_late now t = true ∧
    ∃ rep, grade qs responses (main_elapsed now t) = Except.ok rep ∧
      rep.is_late = true ∧
      ∃ rep2, grade qs responses e2 = Except.ok rep2 ∧
        rep.verdicts = rep2.verdicts ∧ rep.raw_score = rep2.raw_score ∧
        rep.percentage = rep2.percentage ∧ rep.tier = rep2.tier := by
  refine ⟨by simpa [main_is_late, main_elapsed] using hl,
    _, grade_ok_of_ne_nil qs responses _ h,
    by simpa [main_elapsed] using hl,
    _, grade_ok_of_ne_nil qs responses e2 h, rfl, rfl, rfl, rfl⟩

/-- C8 witness: a session graded 200 seconds after the 1800-second limit. -/
theorem lateness_advisory_witness :
    main_is_late 2000 0 = true ∧
    ∃ rep, grade [qA] (fun _ => none) (main_elapsed 2000 0) = Except.ok rep ∧
      rep.is_late = true ∧
      ∃ rep2, grade [qA] (fun _ => none) 0 = Except.ok rep2 ∧
        rep.verdicts = rep2.verdicts ∧ rep.raw_score = rep2.raw_score ∧
        rep.percentage = rep2.percentage ∧ rep.tier = rep2.tier :=
  lateness_advisory [qA] (fun _ => none) 2000 0 0 (by decide)
    (by norm_num [TEST_DURATION_MINUTES])

/-- C9: grading is deterministic: repeated invocations on the same session
and responses return the identical report, and the score-relevant fields
(verdicts, raw score, percentage, tier) depend on nothing besides the
selected questions and the responses — in particular not on the grading
time. -/
theorem grading_deterministic (qs : List Question) (responses : Nat → Option String)
    (e1 e2 : ℚ) :
    grade qs responses e1 = grade qs responses e1 ∧
    (∀ rep1 rep2, grade qs responses e1 = Except.ok rep1 →
      grade qs responses e2 = Except.ok rep2 →
      rep1.verdicts = rep2.verdicts ∧ rep1.raw_score = rep2.raw_score ∧
      rep1.percentage = rep2.percentage ∧ rep1.tier = rep2.tier) := by
  refine ⟨rfl, ?_⟩
  intro rep1 rep2 h1 h2
  obtain ⟨hv1, hs1, hp1, _, ht1⟩ := grade_ok_elim h1
  obtain ⟨hv2, hs2, hp2, _, ht2⟩ := grade_ok_elim h2
  exact ⟨hv1.trans hv2.symm, hs1.trans hs2.symm, hp1.trans hp2.symm, ht1.trans ht2.symm⟩

/-- C9 witness: two gradings of the same concrete session at different
times agree on all score-relevant fields. -/
theorem grading_deterministic_witness :
    ∃ rep1 rep2, grade [qA] (fun _ => none) 0 = Except.ok rep1 ∧
      grade [qA] (fun _ => none) 5 = Except.ok rep2 ∧
      rep1.raw_score = rep2.raw_score ∧ rep1.percentage = rep2.percentage := by
  have h1 := grade_ok_of_ne_nil [qA] (fun _ => none) 0 (by decide)
  have h2 := grade_ok_of_ne_nil [qA] (fun _ => none) 5 (by decide)
  obtain ⟨_, hs, hp, _⟩ := (grading_deterministic [qA] (fun _ => none) 0 5).2 _ _ h1 h2
  exact ⟨_, _, h1, h2, hs, hp⟩

/-- C10: in every session state reachable via `initialize_session` and
`start_test`, `exam_started = true` implies the start time is set (not
`None`) and the selected questions are present, non-empty, and at most
`QUESTIONS_PER_TEST` many — so grading performed only under
`exam_started` never divides by a zero question count. -/
theorem reachable_session_invariant (s : SessionState) (h : Reachable s) :
    s.exam_started = some true →
    (∃ t, s.start_time = some (some t)) ∧
    ∃ qs, s.selected_questions = some qs ∧ qs ≠ [] ∧
      qs.length ≤ QUESTIONS_PER_TEST ∧
      ∀ (responses : Nat → Option String) (elapsed : ℚ),
        ∃ rep, grade qs responses elapsed = Except.ok rep := by
  induction h with
  | fresh => intro hs; simp [freshSession] at hs
  | @init s' _ ih =>
    intro hs
    have hs' : s'.exam_started = some true := by
      cases hd : s'.exam_started with
      | none => simp [initialize_session, hd] at hs
      | some b =>
        simp only [initialize_session, hd, Option.getD_some, Option.some.injEq] at hs
        simp [hd, hs]
    obtain ⟨⟨t, ht⟩, qs, hqs, hne, hlen, hok⟩ := ih hs'
    refine ⟨⟨t, ?_⟩, qs, ?_, hne, hlen, hok⟩
    · simp [initialize_session, ht]
    · simp [initialize_session, hqs]
  | @start s' fs rand now _ ih =>
    by_cases hempty : (load_questions_from_file fs).2.isEmpty
    · intro hs
      rw [show start_test fs rand now s' = s' by simp [start_test, hempty]] at hs ⊢
      exact ih hs
    · intro _
      have hstate : start_test fs rand now s' =
          { exam_started := some true
            selected_questions := some (sample rand
              (min QUESTIONS_PER_TEST (load_questions_from_file fs).2.length) 0
              (load_questions_from_file fs).2)
            start_time := some (some now) } := by
        simp [start_test, hempty]
      rw [hstate]
      have hbankpos : 0 < (load_questions_from_file fs).2.length := by
        cases hq : (load_questions_from_file fs).2 with
        | nil => rw [hq] at hempty; simp at hempty
        | cons a l => simp
      have hslen : (sample rand
          (min QUESTIONS_PER_TEST (load_questions_from_file fs).2.length) 0
          (load_questions_from_file fs).2).length =
          min QUESTIONS_PER_TEST (load_questions_from_file fs).2.length :=
        sample_length rand _ 0 _ (Nat.min_le_right _ _)
      have hpos : 0 < (sample rand
          (min QUESTIONS_PER_TEST (load_questions_from_file fs).2.length) 0
          (load_questions_from_file fs).2).length := by
        rw [hslen]
        have : 0 < QUESTIONS_PER_TEST := by decide
        omega
      have hne : sample rand
          (min QUESTIONS_PER_TEST (load_questions_from_file fs).2.length) 0
          (load_questions_from_file fs).2 ≠ [] := by
        intro hc
        rw [hc] at hpos
        simp at hpos
      refine ⟨⟨now, rfl⟩, _, rfl, hne, ?_, ?_⟩
      · rw [hslen]
        exact Nat.min_le_left _ _
      · intro responses elapsed
        exact ⟨_, grade_ok_of_ne_nil _ responses elapsed hne⟩

/-- C10 witness: the invariant at the concrete reachable state obtained by
one `start_test` on a one-question bank. -/
theorem reachable_session_invariant_witness :
    (∃ t, (start_test (FileState.decoded (JsonValue.list [qA])) (fun _ => 0) 0
        freshSession).start_time = some (some t)) ∧
    ∃ qs, (start_test (FileState.decoded (JsonValue.list [qA])) (fun _ => 0) 0
        freshSession).selected_questions = some qs ∧ qs ≠ [] ∧
      qs.length ≤ QUESTIONS_PER_TEST ∧
      ∀ (responses : Nat → Option String) (elapsed : ℚ),
        ∃ rep, grade qs responses elapsed = Except.ok rep :=
  reachable_session_invariant _
    (Reachable.start (FileState.decoded (JsonValue.list [qA])) (fun _ => 0) 0
      Reachable.fresh)
    rfl

end ScienceJeopardy
